import Mathlib

/-!
Shallow embedding of the `HoverVideoPlayer` playback controller
(`src/index.js`, the single React component of the repository).

The controller is a small state machine driven by interaction events
(mouse/focus/touch → `attemptStartVideo` / `attemptStopVideo`), by the firing
of the single deferred-stop timeout (`pauseVideoTimeoutRef`), and by the media
element's `onPlaying` / `onError` callbacks.  We embed the component's mutable
context (`hoverPlayerState`, `isVideoLoadingRef`, `pauseVideoTimeoutRef`, and
the media element's `paused` / `currentTime` fields) as a structure, each
handler as a pure function returning the updated context together with the
list of observable effects (produced callbacks and media commands) it emits,
and reachability as the closure of those handlers from the initial context.
-/

namespace HoverVideo

/- The `HOVER_PLAYER_STATE` enum of the source, with its numeric ordinals
(the code compares states with `<=` / `>=` on these numbers). -/
namespace HOVER_PLAYER_STATE

@[simp] def stopped : Nat := 0

@[simp] def attemptingToStop : Nat := 1

@[simp] def attemptingToStart : Nat := 2

@[simp] def playing : Nat := 3

end HOVER_PLAYER_STATE

/-- Observable effects a handler can emit: the five produced callbacks, and
the commands issued to the media element (`play()`, `pause()`,
`currentTime = 0`). -/
inductive Effect where
  | onStartingVideo
  | onStartedVideo
  | onStoppingVideo
  | onStoppedVideo
  | onVideoPlaybackFailed
  | play
  | pause
  | resetTime
deriving DecidableEq, Repr

/-- The component props the controller logic reads: the `isFocused` override,
whether a `pausedOverlay` is configured (the source only tests its truthiness
when picking the timeout delay), the fade duration, and the restart flag. -/
structure Config where
  isFocused : Bool
  pausedOverlay : Bool
  overlayFadeTransitionDuration : Nat
  shouldRestartOnVideoStopped : Bool
deriving DecidableEq, Repr

/-- The controller context: `hoverPlayerState` (React state),
`isVideoLoading` (`isVideoLoadingRef.current`), `pendingStopTimer` (the armed
deferred-stop timeout held in `pauseVideoTimeoutRef`, `some delay` while armed
and not yet fired or cleared), and the media element's observable `paused`
flag and playback position (`videoRef.current`). -/
structure Ctx where
  hoverPlayerState : Nat
  isVideoLoading : Bool
  pendingStopTimer : Option Nat
  videoPaused : Bool
  videoCurrentTime : Nat
deriving DecidableEq, Repr

/-- Context at mount: state `stopped`, `isVideoLoadingRef` initialized to
`false`, no timeout armed, a fresh media element (paused, position 0). -/
def initialCtx : Ctx :=
  { hoverPlayerState := HOVER_PLAYER_STATE.stopped
    isVideoLoading := false
    pendingStopTimer := none
    videoPaused := true
    videoCurrentTime := 0 }

/-- `attemptStartVideo` (source lines 157-182): clear any pending stop
timeout, return early if `hoverPlayerState >= attemptingToStart`, otherwise
branch three ways on `videoRef.current.paused` and
`isVideoLoadingRef.current`.  A `play()` command makes the media element
non-paused. -/
def attemptStartVideo (_cfg : Config) (c : Ctx) : Ctx × List Effect :=
  if HOVER_PLAYER_STATE.attemptingToStart ≤ c.hoverPlayerState then
    ({ c with pendingStopTimer := none }, [])
  else if c.videoPaused then
    ({ c with pendingStopTimer := none
              hoverPlayerState := HOVER_PLAYER_STATE.attemptingToStart
              isVideoLoading := true
              videoPaused := false },
     [Effect.onStartingVideo, Effect.play])
  else if c.isVideoLoading then
    ({ c with pendingStopTimer := none
              hoverPlayerState := HOVER_PLAYER_STATE.attemptingToStart },
     [Effect.onStartingVideo])
  else
    ({ c with pendingStopTimer := none
              hoverPlayerState := HOVER_PLAYER_STATE.playing },
     [])

/-- The body of the timeout scheduled by `attemptStopVideo` (source lines
207-225): set state `stopped`, fire `onStoppedVideo`, issue `pause()` only
when `isVideoLoadingRef.current` is false, and reset `currentTime` to 0 when
`shouldRestartOnVideoStopped` is set.  Firing consumes the armed timeout. -/
def pauseVideoTimeout (cfg : Config) (c : Ctx) : Ctx × List Effect :=
  ({ c with hoverPlayerState := HOVER_PLAYER_STATE.stopped
            pendingStopTimer := none
            videoPaused := if c.isVideoLoading then c.videoPaused else true
            videoCurrentTime :=
              if cfg.shouldRestartOnVideoStopped then 0 else c.videoCurrentTime },
   Effect.onStoppedVideo ::
     ((if c.isVideoLoading then [] else [Effect.pause]) ++
      (if cfg.shouldRestartOnVideoStopped then [Effect.resetTime] else [])))

/-- `attemptStopVideo` (source lines 189-228): return early when the
`isFocused` override is active or `hoverPlayerState <= attemptingToStop`
(the guard runs BEFORE the `clearTimeout`); otherwise set state
`attemptingToStop`, fire `onStoppingVideo`, clear any pending timeout and arm
a new one with delay `overlayFadeTransitionDuration` if a `pausedOverlay` is
configured, else 0. -/
def attemptStopVideo (cfg : Config) (c : Ctx) : Ctx × List Effect :=
  if cfg.isFocused = true ∨ c.hoverPlayerState ≤ HOVER_PLAYER_STATE.attemptingToStop then
    (c, [])
  else
    ({ c with hoverPlayerState := HOVER_PLAYER_STATE.attemptingToStop
              pendingStopTimer :=
                some (if cfg.pausedOverlay then cfg.overlayFadeTransitionDuration else 0) },
     [Effect.onStoppingVideo])

/-- The armed deferred-stop timeout elapsing: runs `pauseVideoTimeout` when a
timeout is armed; a cleared (or never-armed) timeout never runs. -/
def fireTimer (cfg : Config) (c : Ctx) : Ctx × List Effect :=
  match c.pendingStopTimer with
  | none => (c, [])
  | some _ => pauseVideoTimeout cfg c

/-- The media element's `onPlaying` handler (source lines 344-358): always
set `isVideoLoadingRef.current = false`; if `hoverPlayerState >=
attemptingToStart` transition to `playing` and fire `onStartedVideo`; else if
the state is `stopped` issue a `pause()` command. -/
def onPlaying (_cfg : Config) (c : Ctx) : Ctx × List Effect :=
  if HOVER_PLAYER_STATE.attemptingToStart ≤ c.hoverPlayerState then
    ({ c with isVideoLoading := false
              hoverPlayerState := HOVER_PLAYER_STATE.playing },
     [Effect.onStartedVideo])
  else if c.hoverPlayerState = HOVER_PLAYER_STATE.stopped then
    ({ c with isVideoLoading := false, videoPaused := true },
     [Effect.pause])
  else
    ({ c with isVideoLoading := false }, [])

/-- The media element's `onError` handler (source lines 359-364): set state
`stopped` and fire `onVideoPlaybackFailed`.  It touches neither
`isVideoLoadingRef` nor the pending timeout. -/
def onError (_cfg : Config) (c : Ctx) : Ctx × List Effect :=
  ({ c with hoverPlayerState := HOVER_PLAYER_STATE.stopped },
   [Effect.onVideoPlaybackFailed])

/-- The React effect on the `isFocused` prop (source lines 246-256): when the
flag changes, call `attemptStartVideo` if it is now true, else
`attemptStopVideo`. -/
def onIsFocusedChanged (cfg : Config) (c : Ctx) : Ctx × List Effect :=
  if cfg.isFocused then attemptStartVideo cfg c else attemptStopVideo cfg c

/-- The events that can reach the controller. -/
inductive Event where
  | start
  | stop
  | timerFire
  | mediaReady
  | mediaError
deriving DecidableEq, Repr

/-- Dispatch one event to the corresponding handler. -/
def step (cfg : Config) : Event → Ctx → Ctx × List Effect
  | Event.start => attemptStartVideo cfg
  | Event.stop => attemptStopVideo cfg
  | Event.timerFire => fireTimer cfg
  | Event.mediaReady => onPlaying cfg
  | Event.mediaError => onError cfg

/-- The context after one event. -/
def stepCtx (cfg : Config) (e : Event) (c : Ctx) : Ctx :=
  (step cfg e c).1

/-- Run a sequence of events (each with the props in force at that moment),
returning the final context and the concatenated effect trace. -/
def run (c : Ctx) : List (Config × Event) → Ctx × List Effect
  | [] => (c, [])
  | p :: rest =>
    ((run (stepCtx p.1 p.2 c) rest).1,
     (step p.1 p.2 c).2 ++ (run (stepCtx p.1 p.2 c) rest).2)

/-- Contexts reachable from mount under any sequence of events (the props
may change between events). -/
inductive Reach : Ctx → Prop where
  | init : Reach initialCtx
  | next (cfg : Config) (e : Event) {c : Ctx} : Reach c → Reach (stepCtx cfg e c)

/-- Contexts reachable from mount using only `requestStart` / `requestStop`
calls. -/
inductive ReachSS : Ctx → Prop where
  | init : ReachSS initialCtx
  | next (cfg : Config) (e : Event) {c : Ctx} :
      e = Event.start ∨ e = Event.stop → ReachSS c → ReachSS (stepCtx cfg e c)

/-- Every event handler preserves the invariant that the state is one of the
four ordinals and that an armed timeout implies the state is at most
`attemptingToStop`. -/
lemma inv_step (cfg : Config) (e : Event) (c : Ctx)
    (h1 : c.hoverPlayerState ≤ 3)
    (h2 : c.pendingStopTimer ≠ none → c.hoverPlayerState ≤ 1) :
    (step cfg e c).1.hoverPlayerState ≤ 3 ∧
      ((step cfg e c).1.pendingStopTimer ≠ none → (step cfg e c).1.hoverPlayerState ≤ 1) := by
  cases e <;>
    simp only [step, attemptStartVideo, attemptStopVideo, fireTimer, pauseVideoTimeout,
      onPlaying, onError, HOVER_PLAYER_STATE.stopped, HOVER_PLAYER_STATE.attemptingToStop,
      HOVER_PLAYER_STATE.attemptingToStart, HOVER_PLAYER_STATE.playing]
  case start =>
    split
    · exact ⟨h1, by simp⟩
    · split
      · exact ⟨by simp, by simp⟩
      · split
        · exact ⟨by simp, by simp⟩
        · exact ⟨by simp, by simp⟩
  case stop =>
    split
    · exact ⟨h1, h2⟩
    · exact ⟨by simp, by simp⟩
  case timerFire =>
    split
    · exact ⟨h1, h2⟩
    · exact ⟨by simp, by simp⟩
  case mediaReady =>
    split
    · rename_i hge
      refine ⟨by simp, ?_⟩
      have hnone : c.pendingStopTimer = none := by
        rcases hopt : c.pendingStopTimer with _ | d
        · rfl
        · exact absurd (h2 (by simp [hopt])) (by omega)
      simp [hnone]
    · split
      · refine ⟨h1, fun _ => ?_⟩
        rename_i hzero
        show c.hoverPlayerState ≤ 1
        omega
      · rename_i hlt _
        refine ⟨h1, fun _ => ?_⟩
        show c.hoverPlayerState ≤ 1
        omega
  case mediaError =>
    exact ⟨by simp, by simp⟩

/-- Every reachable context satisfies the state/timer invariant. -/
lemma reach_inv {c : Ctx} (h : Reach c) :
    c.hoverPlayerState ≤ 3 ∧ (c.pendingStopTimer ≠ none → c.hoverPlayerState ≤ 1) := by
  induction h with
  | init => simp [initialCtx]
  | next cfg e h ih => exact inv_step cfg e _ ih.1 ih.2

/-- Under `start`/`stop` events alone, the stronger invariant holds: the
timeout is armed exactly when the state is `attemptingToStop`. -/
lemma invSS_step (cfg : Config) (e : Event) (c : Ctx)
    (he : e = Event.start ∨ e = Event.stop)
    (h1 : c.hoverPlayerState ≤ 3)
    (h2 : c.pendingStopTimer ≠ none ↔ c.hoverPlayerState = 1) :
    (step cfg e c).1.hoverPlayerState ≤ 3 ∧
      ((step cfg e c).1.pendingStopTimer ≠ none ↔ (step cfg e c).1.hoverPlayerState = 1) := by
  rcases he with he | he <;> subst he
  · simp only [step, attemptStartVideo, HOVER_PLAYER_STATE.attemptingToStart,
      HOVER_PLAYER_STATE.playing]
    split
    · rename_i hge
      refine ⟨h1, ?_⟩
      simp only [ne_eq, not_true_eq_false, false_iff]
      show ¬c.hoverPlayerState = 1
      omega
    · split
      · exact ⟨by simp, by simp⟩
      · split
        · exact ⟨by simp, by simp⟩
        · exact ⟨by simp, by simp⟩
  · simp only [step, attemptStopVideo, HOVER_PLAYER_STATE.attemptingToStop]
    split
    · exact ⟨h1, h2⟩
    · exact ⟨by simp, by simp⟩

/-- Reachability under `start`/`stop` alone yields the iff invariant. -/
lemma reachSS_inv {c : Ctx} (h : ReachSS c) :
    c.hoverPlayerState ≤ 3 ∧ (c.pendingStopTimer ≠ none ↔ c.hoverPlayerState = 1) := by
  induction h with
  | init => simp [initialCtx]
  | next cfg e he h ih => exact invSS_step cfg e _ he ih.1 ih.2

/-- Running any event list preserves reachability. -/
lemma reach_run (l : List (Config × Event)) {c : Ctx} (h : Reach c) :
    Reach (run c l).1 := by
  induction l generalizing c with
  | nil => exact h
  | cons p rest ih => exact ih (Reach.next p.1 p.2 h)

/-- A single step leaves the loading flag false unless it emits a `play`
command or the flag was already true. -/
lemma step_isVideoLoading (cfg : Config) (e : Event) (c : Ctx)
    (h : (step cfg e c).1.isVideoLoading = true) :
    c.isVideoLoading = true ∨ Effect.play ∈ (step cfg e c).2 := by
  cases e <;>
    simp only [step, attemptStartVideo, attemptStopVideo, fireTimer, pauseVideoTimeout,
      onPlaying, onError] at h ⊢
  case start =>
    revert h
    split
    · simp_all
    · split
      · simp
      · split <;> simp_all
  case stop =>
    revert h
    split
    · simp_all
    · simp_all
  case timerFire =>
    revert h
    split
    · simp_all
    · simp_all
  case mediaReady =>
    revert h
    split
    · simp
    · split <;> simp

  case mediaError =>
    simp_all

/-- Across a whole run, the loading flag is true at the end only if it was
true at the start or a `play` command appears in the emitted trace. -/
lemma run_isVideoLoading (l : List (Config × Event)) (c : Ctx)
    (h : (run c l).1.isVideoLoading = true) :
    c.isVideoLoading = true ∨ Effect.play ∈ (run c l).2 := by
  induction l generalizing c with
  | nil => exact Or.inl h
  | cons p rest ih =>
    have h' : (run (stepCtx p.1 p.2 c) rest).1.isVideoLoading = true := h
    rcases ih (stepCtx p.1 p.2 c) h' with h1 | h1
    · rcases step_isVideoLoading p.1 p.2 c h1 with h2 | h2
      · exact Or.inl h2
      · exact Or.inr (by simp only [run]; exact List.mem_append_left _ h2)
    · exact Or.inr (by simp only [run]; exact List.mem_append_right _ h1)

/-- A context whose timer slot is already empty is unchanged by clearing it. -/
lemma clearTimer_eq {c : Ctx} (h : c.pendingStopTimer = none) :
    ({ c with pendingStopTimer := none } : Ctx) = c := by
  cases c
  simp_all

/-- On reachable contexts, a state at or above `attemptingToStart` means no
deferred-stop timeout is armed. -/
lemma reach_timer_none {c : Ctx} (h : Reach c) (hge : 2 ≤ c.hoverPlayerState) :
    c.pendingStopTimer = none := by
  rcases hopt : c.pendingStopTimer with _ | d
  · rfl
  · exact absurd ((reach_inv h).2 (by simp [hopt])) (by omega)

/-- Props used by the concrete scenario theorems: no override, no paused
overlay (so the deferred-stop delay is 0), restart on stop. -/
def cfgPlain : Config :=
  { isFocused := false
    pausedOverlay := false
    overlayFadeTransitionDuration := 400
    shouldRestartOnVideoStopped := true }

/-- Props with the `isFocused` override active. -/
def cfgFocused : Config :=
  { isFocused := true
    pausedOverlay := false
    overlayFadeTransitionDuration := 400
    shouldRestartOnVideoStopped := true }

/-- C1 (counterexample): the claim's full-alphabet invariant
"`pendingStopTimer` is non-null only while `state == AttemptingToStop`" is
false: after `requestStart`, `requestStop`, `onMediaError` the context is
reachable, its state is `stopped` (not `attemptingToStop`), yet the
deferred-stop timeout armed by the `requestStop` is still pending, because
`onError` clears neither the timeout nor the loading flag. -/
theorem claim1_counterexample :
    Reach (run initialCtx
      [(cfgPlain, Event.start), (cfgPlain, Event.stop), (cfgPlain, Event.mediaError)]).1 ∧
    (run initialCtx
      [(cfgPlain, Event.start), (cfgPlain, Event.stop), (cfgPlain, Event.mediaError)]).1.pendingStopTimer
      ≠ none ∧
    (run initialCtx
      [(cfgPlain, Event.start), (cfgPlain, Event.stop), (cfgPlain, Event.mediaError)]).1.hoverPlayerState
      ≠ HOVER_PLAYER_STATE.attemptingToStop :=
  ⟨reach_run _ Reach.init, by decide, by decide⟩

/-- C1 (amended): for every reachable controller context, under any sequence
of `requestStart`/`requestStop` calls, timer firings, `onMediaReady` and
`onMediaError` events, the state is one of the four defined values and
`pendingStopTimer` is non-null only while `state <= AttemptingToStop` (after
an `onMediaError` during a pending stop it can be non-null in `Stopped`);
restricted to sequences of `requestStart`/`requestStop` calls alone,
`pendingStopTimer` is non-null iff `state == AttemptingToStop`. -/
theorem claim1_state_timer_invariant (c : Ctx) :
    (Reach c →
      (c.hoverPlayerState = HOVER_PLAYER_STATE.stopped ∨
        c.hoverPlayerState = HOVER_PLAYER_STATE.attemptingToStop ∨
        c.hoverPlayerState = HOVER_PLAYER_STATE.attemptingToStart ∨
        c.hoverPlayerState = HOVER_PLAYER_STATE.playing) ∧
      (c.pendingStopTimer ≠ none →
        c.hoverPlayerState ≤ HOVER_PLAYER_STATE.attemptingToStop)) ∧
    (ReachSS c →
      (c.pendingStopTimer ≠ none ↔
        c.hoverPlayerState = HOVER_PLAYER_STATE.attemptingToStop)) := by
  constructor
  · intro h
    obtain ⟨ha, hb⟩ := reach_inv h
    constructor
    · simp only [HOVER_PLAYER_STATE.stopped, HOVER_PLAYER_STATE.attemptingToStop,
        HOVER_PLAYER_STATE.attemptingToStart, HOVER_PLAYER_STATE.playing]
      omega
    · simpa using hb
  · intro h
    simpa using (reachSS_inv h).2

/-- C1 (witness): the invariants instantiated at the mount context. -/
theorem claim1_witness :
    ((initialCtx.hoverPlayerState = HOVER_PLAYER_STATE.stopped ∨
        initialCtx.hoverPlayerState = HOVER_PLAYER_STATE.attemptingToStop ∨
        initialCtx.hoverPlayerState = HOVER_PLAYER_STATE.attemptingToStart ∨
        initialCtx.hoverPlayerState = HOVER_PLAYER_STATE.playing) ∧
      (initialCtx.pendingStopTimer ≠ none →
        initialCtx.hoverPlayerState ≤ HOVER_PLAYER_STATE.attemptingToStop)) ∧
    (initialCtx.pendingStopTimer ≠ none ↔
      initialCtx.hoverPlayerState = HOVER_PLAYER_STATE.attemptingToStop) :=
  ⟨(claim1_state_timer_invariant initialCtx).1 Reach.init,
   (claim1_state_timer_invariant initialCtx).2 ReachSS.init⟩

/-- C2: `requestStart()` is a no-op whenever `state >= AttemptingToStart`
(on reachable contexts, where no timeout can then be armed); otherwise it
branches exactly three ways on the media resource: paused → `onStartingVideo`,
`state = AttemptingToStart`, `isLoading = true`, one play command; else still
loading → `onStartingVideo` and `state = AttemptingToStart` with no play
command; else → `state = Playing` with no callback and no command.  Two
consecutive calls starting from a paused resource emit exactly one
`onStartingVideo` and one play command in total. -/
theorem claim2_attemptStartVideo_spec (cfg : Config) (c : Ctx) :
    (Reach c → HOVER_PLAYER_STATE.attemptingToStart ≤ c.hoverPlayerState →
      attemptStartVideo cfg c = (c, [])) ∧
    (c.hoverPlayerState < HOVER_PLAYER_STATE.attemptingToStart → c.videoPaused = true →
      attemptStartVideo cfg c =
        ({ c with pendingStopTimer := none
                  hoverPlayerState := HOVER_PLAYER_STATE.attemptingToStart
                  isVideoLoading := true
                  videoPaused := false },
         [Effect.onStartingVideo, Effect.play])) ∧
    (c.hoverPlayerState < HOVER_PLAYER_STATE.attemptingToStart → c.videoPaused = false →
      c.isVideoLoading = true →
      attemptStartVideo cfg c =
        ({ c with pendingStopTimer := none
                  hoverPlayerState := HOVER_PLAYER_STATE.attemptingToStart },
         [Effect.onStartingVideo])) ∧
    (c.hoverPlayerState < HOVER_PLAYER_STATE.attemptingToStart → c.videoPaused = false →
      c.isVideoLoading = false →
      attemptStartVideo cfg c =
        ({ c with pendingStopTimer := none
                  hoverPlayerState := HOVER_PLAYER_STATE.playing },
         [])) ∧
    (c.hoverPlayerState < HOVER_PLAYER_STATE.attemptingToStart → c.videoPaused = true →
      (attemptStartVideo cfg c).2 ++
        (attemptStartVideo cfg (attemptStartVideo cfg c).1).2 =
        [Effect.onStartingVideo, Effect.play]) := by
  refine ⟨?_, ?_, ?_, ?_, ?_⟩
  · intro hre hge
    simp only [HOVER_PLAYER_STATE.attemptingToStart] at hge
    have hnone := reach_timer_none hre hge
    simp only [attemptStartVideo, HOVER_PLAYER_STATE.attemptingToStart]
    rw [if_pos hge, clearTimer_eq hnone]
  · intro hlt hp
    simp only [HOVER_PLAYER_STATE.attemptingToStart] at hlt
    simp only [attemptStartVideo, HOVER_PLAYER_STATE.attemptingToStart]
    rw [if_neg (by omega), if_pos hp]
  · intro hlt hp hl
    simp only [HOVER_PLAYER_STATE.attemptingToStart] at hlt
    simp only [attemptStartVideo, HOVER_PLAYER_STATE.attemptingToStart]
    rw [if_neg (by omega), if_neg (by simp [hp]), if_pos hl]
  · intro hlt hp hl
    simp only [HOVER_PLAYER_STATE.attemptingToStart] at hlt
    simp only [attemptStartVideo, HOVER_PLAYER_STATE.attemptingToStart]
    rw [if_neg (by omega), if_neg (by simp [hp]), if_neg (by simp [hl])]
  · intro hlt hp
    simp only [HOVER_PLAYER_STATE.attemptingToStart] at hlt
    have h1 : attemptStartVideo cfg c =
        ({ c with pendingStopTimer := none
                  hoverPlayerState := HOVER_PLAYER_STATE.attemptingToStart
                  isVideoLoading := true
                  videoPaused := false },
         [Effect.onStartingVideo, Effect.play]) := by
      simp only [attemptStartVideo, HOVER_PLAYER_STATE.attemptingToStart]
      rw [if_neg (by omega), if_pos hp]
    rw [h1]
    simp [attemptStartVideo]

/-- C2 (witness): the no-op case at the context reached by one start from
mount, and the paused branch at the mount context itself. -/
theorem claim2_witness :
    attemptStartVideo cfgPlain (stepCtx cfgPlain Event.start initialCtx) =
      (stepCtx cfgPlain Event.start initialCtx, []) ∧
    attemptStartVideo cfgPlain initialCtx =
      ({ initialCtx with
          pendingStopTimer := none
          hoverPlayerState := HOVER_PLAYER_STATE.attemptingToStart
          isVideoLoading := true
          videoPaused := false },
       [Effect.onStartingVideo, Effect.play]) ∧
    (attemptStartVideo cfgPlain initialCtx).2 ++
      (attemptStartVideo cfgPlain (attemptStartVideo cfgPlain initialCtx).1).2 =
      [Effect.onStartingVideo, Effect.play] :=
  ⟨(claim2_attemptStartVideo_spec cfgPlain (stepCtx cfgPlain Event.start initialCtx)).1
      (Reach.next cfgPlain Event.start Reach.init) (by decide),
   (claim2_attemptStartVideo_spec cfgPlain initialCtx).2.1 (by decide) (by decide),
   (claim2_attemptStartVideo_spec cfgPlain initialCtx).2.2.2.2 (by decide) (by decide)⟩

/-- C3: when the guard of `requestStop()` passes (`isFocused` override false
and `state > AttemptingToStop`) it sets `state = AttemptingToStop`, fires
`onStoppingVideo`, and arms exactly one deferred stop (the single timer slot,
replacing any previous one) with delay `overlayFadeTransitionDuration` when a
paused overlay is configured and 0 otherwise; when the deferred action fires
it sets `state = Stopped`, fires `onStoppedVideo`, issues a pause command iff
`isLoading` is false at firing time, and resets the playback position iff
restart-on-stop is configured. -/
theorem claim3_attemptStopVideo_spec (cfg : Config) (c : Ctx) :
    (cfg.isFocused = false → HOVER_PLAYER_STATE.attemptingToStop < c.hoverPlayerState →
      attemptStopVideo cfg c =
        ({ c with hoverPlayerState := HOVER_PLAYER_STATE.attemptingToStop
                  pendingStopTimer :=
                    some (if cfg.pausedOverlay then cfg.overlayFadeTransitionDuration else 0) },
         [Effect.onStoppingVideo])) ∧
    (∀ d : Nat, c.pendingStopTimer = some d →
      fireTimer cfg c =
        ({ c with hoverPlayerState := HOVER_PLAYER_STATE.stopped
                  pendingStopTimer := none
                  videoPaused := if c.isVideoLoading then c.videoPaused else true
                  videoCurrentTime :=
                    if cfg.shouldRestartOnVideoStopped then 0 else c.videoCurrentTime },
         Effect.onStoppedVideo ::
           ((if c.isVideoLoading then [] else [Effect.pause]) ++
            (if cfg.shouldRestartOnVideoStopped then [Effect.resetTime] else [])))) ∧
    (∀ d : Nat, c.pendingStopTimer = some d →
      (Effect.pause ∈ (fireTimer cfg c).2 ↔ c.isVideoLoading = false)) ∧
    (∀ d : Nat, c.pendingStopTimer = some d →
      (Effect.resetTime ∈ (fireTimer cfg c).2 ↔ cfg.shouldRestartOnVideoStopped = true)) := by
  refine ⟨?_, ?_, ?_, ?_⟩
  · intro hf hgt
    simp only [HOVER_PLAYER_STATE.attemptingToStop] at hgt
    simp only [attemptStopVideo, HOVER_PLAYER_STATE.attemptingToStop]
    rw [if_neg (by simp [hf]; omega)]
  · intro d hd
    simp [fireTimer, hd, pauseVideoTimeout]
  · intro d hd
    simp only [fireTimer, hd, pauseVideoTimeout]
    cases hl : c.isVideoLoading <;> simp [hl]
  · intro d hd
    simp only [fireTimer, hd, pauseVideoTimeout]
    cases hr : cfg.shouldRestartOnVideoStopped <;> simp [hr]

/-- C3 (witness): the guard and the deferred action at the context reached by
one start from mount (state `attemptingToStart`, loading, timeout then armed
with delay 0 for `cfgPlain`). -/
theorem claim3_witness :
    attemptStopVideo cfgPlain (stepCtx cfgPlain Event.start initialCtx) =
      ({ stepCtx cfgPlain Event.start initialCtx with
          hoverPlayerState := HOVER_PLAYER_STATE.attemptingToStop
          pendingStopTimer :=
            some (if cfgPlain.pausedOverlay then cfgPlain.overlayFadeTransitionDuration else 0) },
       [Effect.onStoppingVideo]) ∧
    (Effect.pause ∈
        (fireTimer cfgPlain (stepCtx cfgPlain Event.stop (stepCtx cfgPlain Event.start initialCtx))).2 ↔
      (stepCtx cfgPlain Event.stop (stepCtx cfgPlain Event.start initialCtx)).isVideoLoading = false) :=
  ⟨(claim3_attemptStopVideo_spec cfgPlain (stepCtx cfgPlain Event.start initialCtx)).1
      (by decide) (by decide),
   (claim3_attemptStopVideo_spec cfgPlain
      (stepCtx cfgPlain Event.stop (stepCtx cfgPlain Event.start initialCtx))).2.2.1 0 (by decide)⟩

/-- C4: a `requestStop()` followed by a `requestStart()` before the deferred
stop fires produces zero pause commands and zero `onStoppedVideo` callbacks,
the start leaves no timeout armed, and a subsequent timer firing is a no-op
(the deferred-stop action scheduled by the stop never runs). -/
theorem claim4_stop_then_start_cancels (cfg1 cfg2 : Config) (c : Ctx) :
    Effect.pause ∉ (attemptStopVideo cfg1 c).2 ∧
    Effect.onStoppedVideo ∉ (attemptStopVideo cfg1 c).2 ∧
    Effect.pause ∉ (attemptStartVideo cfg2 (attemptStopVideo cfg1 c).1).2 ∧
    Effect.onStoppedVideo ∉ (attemptStartVideo cfg2 (attemptStopVideo cfg1 c).1).2 ∧
    (attemptStartVideo cfg2 (attemptStopVideo cfg1 c).1).1.pendingStopTimer = none ∧
    fireTimer cfg1 (attemptStartVideo cfg2 (attemptStopVideo cfg1 c).1).1 =
      ((attemptStartVideo cfg2 (attemptStopVideo cfg1 c).1).1, []) := by
  have hstopEff : ∀ cfg c', Effect.pause ∉ (attemptStopVideo cfg c').2 ∧
      Effect.onStoppedVideo ∉ (attemptStopVideo cfg c').2 := by
    intro cfg c'
    simp only [attemptStopVideo]
    split <;> simp
  have hstartEff : ∀ cfg c', Effect.pause ∉ (attemptStartVideo cfg c').2 ∧
      Effect.onStoppedVideo ∉ (attemptStartVideo cfg c').2 := by
    intro cfg c'
    simp only [attemptStartVideo]
    split
    · simp
    · split
      · simp
      · split <;> simp
  have hstartTimer : ∀ cfg c', (attemptStartVideo cfg c').1.pendingStopTimer = none := by
    intro cfg c'
    simp only [attemptStartVideo]
    split
    · simp
    · split
      · simp
      · split <;> simp
  refine ⟨(hstopEff cfg1 c).1, (hstopEff cfg1 c).2,
    (hstartEff cfg2 _).1, (hstartEff cfg2 _).2, hstartTimer cfg2 _, ?_⟩
  simp [fireTimer, hstartTimer cfg2 (attemptStopVideo cfg1 c).1]

/-- C5 (counterexample): the claim that `isLoading` is false immediately
after `onMediaError` runs is false: after `requestStart` (which issues a play
command) followed by `onMediaError`, the loading flag is still true, because
`onError` never touches `isVideoLoadingRef`. -/
theorem claim5_counterexample :
    (run initialCtx [(cfgPlain, Event.start), (cfgPlain, Event.mediaError)]).1.isVideoLoading
      = true ∧
    (run initialCtx [(cfgPlain, Event.start), (cfgPlain, Event.mediaError)]).2 =
      [Effect.onStartingVideo, Effect.play, Effect.onVideoPlaybackFailed] := by
  constructor
  · decide
  · decide

/-- C5 (amended): `isLoading` is true only if a play command was issued to
the media resource and no readiness signal (`onMediaReady`) has since been
observed: a run emitting no play command ends with `isLoading = false`, and
`onMediaReady` always clears the flag.  `onMediaError`, however, leaves
`isLoading` unchanged, so the flag can remain true right after an error. -/
theorem claim5_loading_flag (cfg : Config) (c : Ctx) (l : List (Config × Event)) :
    (Effect.play ∉ (run initialCtx l).2 → (run initialCtx l).1.isVideoLoading = false) ∧
    ((onPlaying cfg c).1.isVideoLoading = false) ∧
    ((onError cfg c).1.isVideoLoading = c.isVideoLoading) := by
  refine ⟨?_, ?_, rfl⟩
  · intro hnp
    rcases hload : (run initialCtx l).1.isVideoLoading with _ | _
    · rfl
    · rcases run_isVideoLoading l initialCtx hload with h0 | h0
      · exact absurd h0 (by decide)
      · exact absurd h0 hnp
  · simp only [onPlaying]
    split
    · simp
    · split <;> simp

/-- C5 (witness): the amended properties at a run that never plays and at the
mount context. -/
theorem claim5_witness :
    (run initialCtx [(cfgPlain, Event.stop)]).1.isVideoLoading = false ∧
    (onPlaying cfgPlain initialCtx).1.isVideoLoading = false ∧
    (onError cfgPlain initialCtx).1.isVideoLoading = initialCtx.isVideoLoading :=
  ⟨(claim5_loading_flag cfgPlain initialCtx [(cfgPlain, Event.stop)]).1 (by decide),
   (claim5_loading_flag cfgPlain initialCtx [(cfgPlain, Event.stop)]).2.1,
   (claim5_loading_flag cfgPlain initialCtx [(cfgPlain, Event.stop)]).2.2⟩

/-- C6: `onMediaError`, invoked in any state, sets `state = Stopped` and
fires `onVideoPlaybackFailed` (the handler is total, so no exception
propagates); the sequence `requestStart` (from `Stopped` with the resource
paused) then `onMediaError` yields the state sequence `Stopped`,
`AttemptingToStart`, `Stopped` with trace `onStartingVideo`, play,
`onVideoPlaybackFailed`, and no pause command. -/
theorem claim6_onError_spec (cfg : Config) (c : Ctx) :
    onError cfg c =
      ({ c with hoverPlayerState := HOVER_PLAYER_STATE.stopped },
       [Effect.onVideoPlaybackFailed]) ∧
    (c.hoverPlayerState = HOVER_PLAYER_STATE.stopped → c.videoPaused = true →
      (stepCtx cfg Event.start c).hoverPlayerState = HOVER_PLAYER_STATE.attemptingToStart ∧
      (run c [(cfg, Event.start), (cfg, Event.mediaError)]).1.hoverPlayerState =
        HOVER_PLAYER_STATE.stopped ∧
      (run c [(cfg, Event.start), (cfg, Event.mediaError)]).2 =
        [Effect.onStartingVideo, Effect.play, Effect.onVideoPlaybackFailed] ∧
      Effect.pause ∉ (run c [(cfg, Event.start), (cfg, Event.mediaError)]).2) := by
  refine ⟨rfl, ?_⟩
  intro hs hp
  simp only [HOVER_PLAYER_STATE.stopped] at hs
  have h1 : attemptStartVideo cfg c =
      ({ c with pendingStopTimer := none
                hoverPlayerState := HOVER_PLAYER_STATE.attemptingToStart
                isVideoLoading := true
                videoPaused := false },
       [Effect.onStartingVideo, Effect.play]) := by
    simp only [attemptStartVideo, HOVER_PLAYER_STATE.attemptingToStart]
    rw [if_neg (by omega), if_pos hp]
  refine ⟨?_, ?_, ?_, ?_⟩ <;>
    simp [run, stepCtx, step, h1, onError]

/-- C6 (witness): the scenario run from the mount context. -/
theorem claim6_witness :
    onError cfgPlain initialCtx =
      ({ initialCtx with hoverPlayerState := HOVER_PLAYER_STATE.stopped },
       [Effect.onVideoPlaybackFailed]) ∧
    (stepCtx cfgPlain Event.start initialCtx).hoverPlayerState =
      HOVER_PLAYER_STATE.attemptingToStart ∧
    (run initialCtx [(cfgPlain, Event.start), (cfgPlain, Event.mediaError)]).1.hoverPlayerState =
      HOVER_PLAYER_STATE.stopped ∧
    (run initialCtx [(cfgPlain, Event.start), (cfgPlain, Event.mediaError)]).2 =
      [Effect.onStartingVideo, Effect.play, Effect.onVideoPlaybackFailed] ∧
    Effect.pause ∉ (run initialCtx [(cfgPlain, Event.start), (cfgPlain, Event.mediaError)]).2 :=
  ⟨(claim6_onError_spec cfgPlain initialCtx).1,
   (claim6_onError_spec cfgPlain initialCtx).2 rfl rfl⟩

/-- C7: `onMediaReady` always sets `isLoading = false`; if
`state >= AttemptingToStart` it sets `state = Playing` and fires
`onStartedVideo`; if `state == Stopped` it issues a pause command, does not
transition to `Playing`, and fires no callback. -/
theorem claim7_onPlaying_spec (cfg : Config) (c : Ctx) :
    ((onPlaying cfg c).1.isVideoLoading = false) ∧
    (HOVER_PLAYER_STATE.attemptingToStart ≤ c.hoverPlayerState →
      onPlaying cfg c =
        ({ c with isVideoLoading := false
                  hoverPlayerState := HOVER_PLAYER_STATE.playing },
         [Effect.onStartedVideo])) ∧
    (c.hoverPlayerState = HOVER_PLAYER_STATE.stopped →
      onPlaying cfg c =
        ({ c with isVideoLoading := false, videoPaused := true },
         [Effect.pause])) := by
  refine ⟨?_, ?_, ?_⟩
  · simp only [onPlaying]
    split
    · simp
    · split <;> simp
  · intro hge
    simp only [onPlaying]
    rw [if_pos hge]
  · intro hs
    simp only [HOVER_PLAYER_STATE.stopped] at hs
    simp only [onPlaying, HOVER_PLAYER_STATE.attemptingToStart, HOVER_PLAYER_STATE.stopped]
    rw [if_neg (by omega), if_pos hs]

/-- C7 (witness): the `Stopped` race at the mount context and the transition
to `Playing` at the context reached by one start. -/
theorem claim7_witness :
    onPlaying cfgPlain initialCtx =
      ({ initialCtx with isVideoLoading := false, videoPaused := true },
       [Effect.pause]) ∧
    onPlaying cfgPlain (stepCtx cfgPlain Event.start initialCtx) =
      ({ stepCtx cfgPlain Event.start initialCtx with
          isVideoLoading := false
          hoverPlayerState := HOVER_PLAYER_STATE.playing },
       [Effect.onStartedVideo]) :=
  ⟨(claim7_onPlaying_spec cfgPlain initialCtx).2.2 rfl,
   (claim7_onPlaying_spec cfgPlain (stepCtx cfgPlain Event.start initialCtx)).2.1 (by decide)⟩

/-- C8: while the `isFocused` override is true every `requestStop()` call is
a no-op (context unchanged, no callback); the effect watching the flag calls
`attemptStartVideo` when the flag turns true and `attemptStopVideo` (exactly
once) when it is cleared. -/
theorem claim8_isFocused_override (cfg : Config) (c : Ctx) :
    (cfg.isFocused = true → attemptStopVideo cfg c = (c, [])) ∧
    (cfg.isFocused = true → onIsFocusedChanged cfg c = attemptStartVideo cfg c) ∧
    (cfg.isFocused = false → onIsFocusedChanged cfg c = attemptStopVideo cfg c) := by
  refine ⟨?_, ?_, ?_⟩
  · intro hf
    simp only [attemptStopVideo]
    rw [if_pos (Or.inl hf)]
  · intro hf
    simp [onIsFocusedChanged, hf]
  · intro hf
    simp [onIsFocusedChanged, hf]

/-- C8 (witness): the override at the mount context with focused and
unfocused props. -/
theorem claim8_witness :
    attemptStopVideo cfgFocused initialCtx = (initialCtx, []) ∧
    onIsFocusedChanged cfgFocused initialCtx = attemptStartVideo cfgFocused initialCtx ∧
    onIsFocusedChanged cfgPlain initialCtx = attemptStopVideo cfgPlain initialCtx :=
  ⟨(claim8_isFocused_override cfgFocused initialCtx).1 rfl,
   (claim8_isFocused_override cfgFocused initialCtx).2.1 rfl,
   (claim8_isFocused_override cfgPlain initialCtx).2.2 rfl⟩

/-- C9 (counterexample): the claim that after a no-op `requestStop()` no
previously scheduled deferred stop remains armed is false: from the context
reached by `requestStart` then `requestStop` (state `attemptingToStop`,
timeout armed), a second `requestStop` returns before its `clearTimeout`
(the guard runs first), emits nothing and schedules nothing, yet the timeout
armed by the first stop is still pending. -/
theorem claim9_counterexample :
    attemptStopVideo cfgPlain
        (run initialCtx [(cfgPlain, Event.start), (cfgPlain, Event.stop)]).1 =
      ((run initialCtx [(cfgPlain, Event.start), (cfgPlain, Event.stop)]).1, []) ∧
    (attemptStopVideo cfgPlain
        (run initialCtx [(cfgPlain, Event.start), (cfgPlain, Event.stop)]).1).1.pendingStopTimer =
      some 0 := by
  constructor
  · decide
  · decide

/-- C9 (amended): `requestStart()` cancels any pending deferred-stop timer
before (indeed regardless of) its guard, leaving no timeout armed;
`requestStop()` evaluates its guard first and cancels-and-replaces the
timeout only when the guard passes, so a `requestStop` whose guard fails
leaves the context (and any previously armed deferred stop) untouched. -/
theorem claim9_cancellation_order (cfg : Config) (c : Ctx) :
    ((attemptStartVideo cfg c).1.pendingStopTimer = none) ∧
    (cfg.isFocused = true ∨ c.hoverPlayerState ≤ HOVER_PLAYER_STATE.attemptingToStop →
      attemptStopVideo cfg c = (c, [])) ∧
    (cfg.isFocused = false → HOVER_PLAYER_STATE.attemptingToStop < c.hoverPlayerState →
      (attemptStopVideo cfg c).1.pendingStopTimer =
        some (if cfg.pausedOverlay then cfg.overlayFadeTransitionDuration else 0)) := by
  refine ⟨?_, ?_, ?_⟩
  · simp only [attemptStartVideo]
    split
    · simp
    · split
      · simp
      · split <;> simp
  · intro hg
    simp only [attemptStopVideo]
    rw [if_pos hg]
  · intro hf hgt
    simp only [HOVER_PLAYER_STATE.attemptingToStop] at hgt
    simp only [attemptStopVideo, HOVER_PLAYER_STATE.attemptingToStop]
    rw [if_neg (by simp [hf]; omega)]

/-- C9 (witness): cancellation order at the mount context and after one
start. -/
theorem claim9_witness :
    (attemptStartVideo cfgPlain initialCtx).1.pendingStopTimer = none ∧
    attemptStopVideo cfgPlain initialCtx = (initialCtx, []) ∧
    (attemptStopVideo cfgPlain (stepCtx cfgPlain Event.start initialCtx)).1.pendingStopTimer =
      some (if cfgPlain.pausedOverlay then cfgPlain.overlayFadeTransitionDuration else 0) :=
  ⟨(claim9_cancellation_order cfgPlain initialCtx).1,
   (claim9_cancellation_order cfgPlain initialCtx).2.1 (by decide),
   (claim9_cancellation_order cfgPlain (stepCtx cfgPlain Event.start initialCtx)).2.2
      rfl (by decide)⟩

/-- C10: if `onMediaReady` fires while `state == AttemptingToStop`, the only
change is that `isLoading` becomes false — state unchanged, no callback, no
play or pause command — and the still-pending deferred-stop action, when it
later fires, then issues the pause command because `isLoading` is false. -/
theorem claim10_ready_while_stopping (cfg : Config) (c : Ctx) :
    (c.hoverPlayerState = HOVER_PLAYER_STATE.attemptingToStop →
      onPlaying cfg c = ({ c with isVideoLoading := false }, [])) ∧
    (c.hoverPlayerState = HOVER_PLAYER_STATE.attemptingToStop →
      ∀ d : Nat, c.pendingStopTimer = some d →
        Effect.pause ∈ (fireTimer cfg (onPlaying cfg c).1).2) := by
  have hmain : c.hoverPlayerState = HOVER_PLAYER_STATE.attemptingToStop →
      onPlaying cfg c = ({ c with isVideoLoading := false }, []) := by
    intro hs
    simp only [HOVER_PLAYER_STATE.attemptingToStop] at hs
    simp only [onPlaying, HOVER_PLAYER_STATE.attemptingToStart, HOVER_PLAYER_STATE.stopped]
    rw [if_neg (by omega), if_neg (by omega)]
  refine ⟨hmain, ?_⟩
  intro hs d hd
  rw [hmain hs]
  simp [fireTimer, pauseVideoTimeout, hd]

/-- C10 (witness): readiness during the pending stop reached by start then
stop from mount, followed by the timer firing. -/
theorem claim10_witness :
    onPlaying cfgPlain (run initialCtx [(cfgPlain, Event.start), (cfgPlain, Event.stop)]).1 =
      ({ (run initialCtx [(cfgPlain, Event.start), (cfgPlain, Event.stop)]).1 with
          isVideoLoading := false },
       []) ∧
    Effect.pause ∈
      (fireTimer cfgPlain
        (onPlaying cfgPlain
          (run initialCtx [(cfgPlain, Event.start), (cfgPlain, Event.stop)]).1).1).2 :=
  ⟨(claim10_ready_while_stopping cfgPlain
      (run initialCtx [(cfgPlain, Event.start), (cfgPlain, Event.stop)]).1).1 (by decide),
   (claim10_ready_while_stopping cfgPlain
      (run initialCtx [(cfgPlain, Event.start), (cfgPlain, Event.stop)]).1).2
      (by decide) 0 (by decide)⟩

end HoverVideo
